import Mathlib

/-!
Verification of the kubragen core engines against their natural-language
specification.

The embedding models the Python values handled by the library as one
inductive type `Value`: scalars (`None`, `int`, `bool`, `str` and the
`HelperStr` tagged-string subclasses), mappings (`dict`, kept as ordered
association lists, matching insertion order of Python dicts), sequences
(`list`), the `Data` conditional-value wrapper (`ValueData`/`DisabledData`
from `kubragen/data.py`), and the option markers from `kubragen/option.py`
(`OptionDef`, `OptionRoot`, `OptionDefaultValue`).

Python exceptions are modelled by `Except PyErr`; fallible functions
return `Except PyErr α` and pure tree transformations return plain values.
-/

namespace Kubragen

/-- The five concrete `HelperStr` subclasses of `kubragen/helper.py`. -/
inductive HTag where
  | quoted
  | singleQuoted
  | doubleQuoted
  | folded
  | literal
deriving DecidableEq, Repr

/-- Python runtime types that can appear in an `OptionDef.allowed_types`
list.  `pnone` stands for a literal `None` entry in that list
(`is_allowed_types` treats it specially). -/
inductive PyTy where
  | pstr
  | pint
  | pbool
  | pdict
  | plist
  | pnone
deriving DecidableEq, Repr

/-- Exceptions raised by the modelled code.  `attributeError` and the
argument-less `typeError` raised by Python builtins carry no message. -/
inductive PyErr where
  | optionError (msg : String)
  | typeError (msg : String)
  | mergeError (msg : String)
  | invalidOperationError (msg : String)
  | invalidParamError (msg : String)
  | attributeError
deriving DecidableEq, Repr

/-- A Python value as handled by the kubragen core: scalar leaves,
dicts (ordered association lists), lists, the `Data` wrapper
(`enabled` flag plus payload, covering `ValueData` and `DisabledData`),
and the option marker classes. -/
inductive Value where
  | vnone
  | vint (n : Int)
  | vbool (b : Bool)
  | vstr (s : String)
  | helperStr (t : HTag) (s : String)
  | vmap (es : List (String × Value))
  | vseq (xs : List Value)
  | vdata (enabled : Bool) (payload : Value)
  | optionDef (required : Bool) (default_value : Value) (allowed_types : Option (List PyTy))
  | optionRoot (name : String)
  | optionDefaultValue

mutual

/-- Boolean structural equality on `Value` (used to build decidable
equality, which the automatic deriving does not provide for this nested
inductive). -/
def Value.beq : Value → Value → Bool
  | .vnone, .vnone => true
  | .vint n, .vint m => n == m
  | .vbool x, .vbool y => x == y
  | .vstr s, .vstr t => s == t
  | .helperStr a s, .helperStr b t => a == b && s == t
  | .vmap es, .vmap fs => Value.beqEntries es fs
  | .vseq xs, .vseq ys => Value.beqItems xs ys
  | .vdata e p, .vdata f q => e == f && Value.beq p q
  | .optionDef r d a, .optionDef r' d' a' => r == r' && Value.beq d d' && a == a'
  | .optionRoot n, .optionRoot m => n == m
  | .optionDefaultValue, .optionDefaultValue => true
  | _, _ => false

def Value.beqEntries : List (String × Value) → List (String × Value) → Bool
  | [], [] => true
  | (k, v) :: r, (k', v') :: r' => k == k' && Value.beq v v' && Value.beqEntries r r'
  | _, _ => false

def Value.beqItems : List Value → List Value → Bool
  | [], [] => true
  | v :: r, v' :: r' => Value.beq v v' && Value.beqItems r r'
  | _, _ => false

end

mutual

theorem Value.beq_iff : ∀ (a b : Value), Value.beq a b = true ↔ a = b
  | .vnone, b => by cases b <;> simp [Value.beq]
  | .vint n, b => by cases b <;> simp [Value.beq]
  | .vbool x, b => by cases b <;> simp [Value.beq]
  | .vstr s, b => by cases b <;> simp [Value.beq]
  | .helperStr a s, b => by cases b <;> simp [Value.beq]
  | .vmap es, b => by
      cases b <;> simp [Value.beq]
      exact Value.beqEntries_iff es _
  | .vseq xs, b => by
      cases b <;> simp [Value.beq]
      exact Value.beqItems_iff xs _
  | .vdata e p, b => by
      cases b <;> simp [Value.beq]
      case vdata f q => intro _; exact Value.beq_iff p q
  | .optionDef r d a, b => by
      cases b <;> simp [Value.beq]
      case optionDef r' d' a' => rw [Value.beq_iff d d']; tauto
  | .optionRoot n, b => by cases b <;> simp [Value.beq]
  | .optionDefaultValue, b => by cases b <;> simp [Value.beq]

theorem Value.beqEntries_iff : ∀ (es fs : List (String × Value)),
    Value.beqEntries es fs = true ↔ es = fs
  | [], fs => by cases fs <;> simp [Value.beqEntries]
  | (k, v) :: r, fs => by
      cases fs with
      | nil => simp [Value.beqEntries]
      | cons kv' r' =>
          obtain ⟨k', v'⟩ := kv'
          simp [Value.beqEntries, Value.beq_iff v v', Value.beqEntries_iff r r']
          try tauto

theorem Value.beqItems_iff : ∀ (xs ys : List Value),
    Value.beqItems xs ys = true ↔ xs = ys
  | [], ys => by cases ys <;> simp [Value.beqItems]
  | v :: r, ys => by
      cases ys with
      | nil => simp [Value.beqItems]
      | cons v' r' =>
          simp [Value.beqItems, Value.beq_iff v v', Value.beqItems_iff r r']

end

instance : DecidableEq Value := fun a b => decidable_of_iff _ (Value.beq_iff a b)

deriving instance DecidableEq for Except

namespace Value

/-- `isinstance(v, Mapping)` for the modelled values. -/
def isMapping : Value → Bool
  | .vmap _ => true
  | _ => false

/-- `isinstance(v, Sequence)`: Python lists and strings (including
`HelperStr` subclasses) are `Sequence`s. -/
def isSequence : Value → Bool
  | .vseq _ => true
  | .vstr _ => true
  | .helperStr _ _ => true
  | _ => false

/-- `v is None`. -/
def isNone : Value → Bool
  | .vnone => true
  | _ => false

/-- `isinstance(v, Data)` (`kubragen/data.py`). -/
def isData : Value → Bool
  | .vdata _ _ => true
  | _ => false

/-- `isinstance(v, str)`: plain strings and `HelperStr` subclasses. -/
def isStr : Value → Bool
  | .vstr _ => true
  | .helperStr _ _ => true
  | _ => false

/-- `isinstance(v, HelperStr)`. -/
def isHelperStr : Value → Bool
  | .helperStr _ _ => true
  | _ => false

/-- `isinstance(v, Option)` (`kubragen/option.py`): `OptionDef`,
`OptionRoot` and the `OptionValue` subclass `OptionDefaultValue`. -/
def isOption : Value → Bool
  | .optionDef _ _ _ => true
  | .optionRoot _ => true
  | .optionDefaultValue => true
  | _ => false

end Value

/-- First binding of a key in an association list, like a Python dict
lookup (`d[k]` / `d.get(k)`). -/
def aget (es : List (String × Value)) (k : String) : Option Value :=
  match es with
  | [] => none
  | (k', v) :: rest => if k' = k then some v else aget rest k

/-- Replace the (first) binding of an existing key, like `d[k] = v` on a
dict that already contains `k`. -/
def aset (es : List (String × Value)) (k : String) (v : Value) : List (String × Value) :=
  match es with
  | [] => []
  | (k', v') :: rest => if k' = k then (k, v) :: rest else (k', v') :: aset rest k v

/-- `k in d` for a dict. -/
def akey (es : List (String × Value)) (k : String) : Bool :=
  match es with
  | [] => false
  | (k', _) :: rest => k' = k || akey rest k

/-- `DataGetValue(value, raise_if_disabled)` from `kubragen/data.py`.
Note the recursive call `DataGetValue(value.get_value())` does NOT pass
the flag on, so it recurses with the default `raise_if_disabled=False`. -/
def DataGetValue (value : Value) (raise_if_disabled : Bool) : Except PyErr Value :=
  match value with
  | .vdata false _ =>
      if raise_if_disabled then .error (.invalidOperationError "Value is disabled")
      else .ok .vnone
  | .vdata true payload => DataGetValue payload false
  | v => .ok v

/-- The pure unwrap performed by `DataGetValue` when `raise_if_disabled`
is false (the call made by `DataClean`); it can never raise. -/
def dataGetValuePure : Value → Value
  | .vdata false _ => .vnone
  | .vdata true payload => dataGetValuePure payload
  | v => v

mutual

/-- One pass of `DataCleanProp` over every entry of a dict, followed by
the in-place recursion `for item in data.values(): DataClean(item)`
(`kubragen/data.py`, `DataClean` mapping branch).  A disabled `Data`
entry is deleted; an enabled one is replaced by `get_value()` (one
unwrap); the recursive `DataClean(item)` call only mutates items that
are mutable mappings or sequences, so other items (including a `Data`
produced by the single unwrap) are kept as they are. -/
def cleanEntries : List (String × Value) → List (String × Value)
  | [] => []
  | (_, .vdata false _) :: rest => cleanEntries rest
  | (k, .vdata true payload) :: rest => (k, cleanSub payload) :: cleanEntries rest
  | (k, v) :: rest => (k, cleanSub v) :: cleanEntries rest

/-- Same pass for a list (`DataClean` sequence branch).  The Python code
iterates indices in reverse so deletions do not shift unvisited
indices; the functional result is elementwise deletion/replacement. -/
def cleanItems : List Value → List Value
  | [] => []
  | .vdata false _ :: rest => cleanItems rest
  | .vdata true payload :: rest => cleanSub payload :: cleanItems rest
  | v :: rest => cleanSub v :: cleanItems rest

/-- The effect of the in-place recursive call `DataClean(item)`: only
mutable mappings and sequences are mutated; anything else is left
untouched (the returned value is discarded by the caller). -/
def cleanSub : Value → Value
  | .vmap es => .vmap (cleanEntries es)
  | .vseq xs => .vseq (cleanItems xs)
  | v => v

end

/-- `DataClean(data)` from `kubragen/data.py`, as the value of the
mutated tree (equally, the function's return value: for containers the
return value is the mutated container itself, and for anything else it
is `DataGetValue(data)`). -/
def DataClean (data : Value) : Value :=
  match data with
  | .vmap es => .vmap (cleanEntries es)
  | .vseq xs => .vseq (cleanItems xs)
  | v => dataGetValuePure v

/-! ## `kubragen/util.py`: dotted-path lookup and type checks -/

/-- `name.split('.')` from Python, written as structural recursion over
the character list so that it evaluates by kernel reduction (Python's
split of an empty string yields `[""]`, and separators at either end
produce empty chunks, exactly as here). -/
def pySplitAux (sep : Char) : List Char → List Char → List String
  | cur, [] => [String.mk cur.reverse]
  | cur, c :: rest =>
      if c = sep then String.mk cur.reverse :: pySplitAux sep [] rest
      else pySplitAux sep (c :: cur) rest

/-- `name.split('.')`. -/
def pySplitDot (s : String) : List String :=
  pySplitAux '.' [] s.data

/-- Whether the first character list is an initial segment of the
second. -/
def listStartsWith : List Char → List Char → Bool
  | [], _ => true
  | _ :: _, [] => false
  | a :: as, b :: bs => a = b && listStartsWith as bs

/-- Substring containment on character lists. -/
def listSubstr : List Char → List Char → Bool
  | chunk, [] => chunk.isEmpty
  | chunk, c :: rest => listStartsWith chunk (c :: rest) || listSubstr chunk rest

/-- Python `chunk in s` for strings: substring containment (an empty
`chunk` is contained in every string). -/
def pyInStr (chunk s : String) : Bool :=
  listSubstr chunk.data s.data

/-- Python `chunk in current_data`: key containment for dicts, element
equality for lists (string subclasses compare equal to plain strings by
content), substring containment for strings; a `TypeError` for anything
that is not a container. -/
def pyContains : Value → String → Except PyErr Bool
  | .vmap es, chunk => .ok (akey es chunk)
  | .vseq xs, chunk => .ok (xs.any fun v =>
      match v with
      | .vstr s => s = chunk
      | .helperStr _ s => s = chunk
      | _ => false)
  | .vstr s, chunk => .ok (pyInStr chunk s)
  | .helperStr _ s, chunk => .ok (pyInStr chunk s)
  | _, _ => .error (.typeError "argument is not iterable")

/-- The loop of `dict_get_value` over the chunks of the split name.
`current_data.get(chunk, {})` is a dict method: on a non-dict container
that passed the membership test it raises `AttributeError`. -/
def dict_get_value_go (name : String) : Value → List String → Except PyErr Value
  | cur, [] => .ok cur
  | cur, chunk :: rest =>
      if ¬(cur.isMapping || cur.isSequence) then
        .error (.optionError ("Could not find option \"" ++ name ++ "\""))
      else
        match pyContains cur chunk with
        | .error e => .error e
        | .ok c =>
            if ¬c then .error (.optionError ("Could not find option \"" ++ name ++ "\""))
            else
              match cur with
              | .vmap es => dict_get_value_go name ((aget es chunk).getD (.vmap [])) rest
              | _ => .error .attributeError

/-- `dict_get_value(dict, name)` from `kubragen/util.py`. -/
def dict_get_value (d : Value) (name : String) : Except PyErr Value :=
  dict_get_value_go name d (pySplitDot name)

/-- The loop of `dict_has_name`.  Unlike `dict_get_value` there is no
`isinstance` guard before the membership test, so a non-container
intermediate raises `TypeError` instead of returning `False`. -/
def dict_has_name_go : Value → List String → Except PyErr Bool
  | _, [] => .ok true
  | cur, chunk :: rest =>
      match pyContains cur chunk with
      | .error e => .error e
      | .ok c =>
          if ¬c then .ok false
          else
            match cur with
            | .vmap es => dict_has_name_go ((aget es chunk).getD (.vmap [])) rest
            | _ => .error .attributeError

/-- `dict_has_name(dict, name)` from `kubragen/util.py`. -/
def dict_has_name (d : Value) (name : String) : Except PyErr Bool :=
  dict_has_name_go d (pySplitDot name)

/-- `isinstance(value, t)` for an entry of an `allowed_types` list
(`bool` is a subclass of `int` in Python). -/
def pyInstanceOfTy (v : Value) : PyTy → Bool
  | .pstr => v.isStr
  | .pint => match v with | .vint _ => true | .vbool _ => true | _ => false
  | .pbool => match v with | .vbool _ => true | _ => false
  | .pdict => v.isMapping
  | .plist => match v with | .vseq _ => true | _ => false
  | .pnone => false

/-- `is_allowed_types(value, allowed_types, required)` from
`kubragen/util.py`: a `None` value short-circuits on `required` when it
was supplied; `allowed_types=None` means no check; a `None` entry in the
list matches exactly a `None` value. -/
def is_allowed_types (value : Value) (allowed_types : Option (List PyTy))
    (required : Option Bool) : Bool :=
  if value.isNone && required.isSome then !(required.getD false)
  else
    match allowed_types with
    | none => true
    | some ts => ts.any fun t =>
        match t with
        | .pnone => value.isNone
        | ty => pyInstanceOfTy value ty

/-- `type_name` from `kubragen/util.py` applied to a value (the name of
its runtime type).  The model collapses `ValueData`/`DisabledData` into
one constructor and reports `ValueData`. -/
def type_name : Value → String
  | .vnone => "NoneType"
  | .vint _ => "int"
  | .vbool _ => "bool"
  | .vstr _ => "str"
  | .helperStr .quoted _ => "QuotedStr"
  | .helperStr .singleQuoted _ => "SingleQuotedStr"
  | .helperStr .doubleQuoted _ => "DoubleQuotedStr"
  | .helperStr .folded _ => "FoldedStr"
  | .helperStr .literal _ => "LiteralStr"
  | .vmap _ => "dict"
  | .vseq _ => "list"
  | .vdata _ _ => "ValueData"
  | .optionDef _ _ _ => "OptionDef"
  | .optionRoot _ => "OptionRoot"
  | .optionDefaultValue => "OptionDefaultValue"

/-- `type_name` applied to an `allowed_types` entry. -/
def pyTyName : PyTy → String
  | .pstr => "str"
  | .pint => "int"
  | .pbool => "bool"
  | .pdict => "dict"
  | .plist => "list"
  | .pnone => "NoneType"

/-! ## `kubragen/options.py` and `kubragen/private/options.py` -/

/-- An options store (`OptionsBase` from `kubragen/options.py`): the
declared schema and the concrete overrides, each either a tree or
`None`. -/
structure OptionsBase where
  defined_options : Value
  options : Value
deriving DecidableEq

mutual

/-- The `for oname, ovalue in options.items()` loop of
`_options_checkdefinitions` (`kubragen/private/options.py`): every key
of `options` must exist in `defined_options`; schema leaves that are
`Option` instances stop the recursion; mapping values recurse with the
extended path.  No allowed-types validation happens here. -/
def optionsCheckItems (path : List String) (defined : Value) :
    List (String × Value) → Except PyErr Unit
  | [] => .ok ()
  | (oname, ovalue) :: rest =>
      match pyContains defined oname with
      | .error e => .error e
      | .ok c =>
          if ¬c then
            .error (.optionError ("Unknown option: \"" ++
              String.intercalate "." path ++ "." ++ oname ++ "\""))
          else
            match defined with
            | .vmap ds =>
                let dv := (aget ds oname).getD .vnone
                if dv.isOption then optionsCheckItems path defined rest
                else
                  match ovalue with
                  | .vmap _ =>
                      match optionsCheckRec (path ++ [oname]) dv ovalue with
                      | .error e => .error e
                      | .ok _ => optionsCheckItems path defined rest
                  | _ => optionsCheckItems path defined rest
            | _ => .error (.typeError "object is not subscriptable")

/-- `_options_checkdefinitions(path, defined_options, options)`: returns
immediately when either side is `None`, otherwise iterates the entries
of `options` (which must be a mapping). -/
def optionsCheckRec (path : List String) (defined options : Value) : Except PyErr Unit :=
  if defined.isNone || options.isNone then .ok ()
  else
    match options with
    | .vmap es => optionsCheckItems path defined es
    | _ => .error .attributeError

end

/-- `OptionsCheckDefinitions(defined_options, options)` from
`kubragen/private/options.py`. -/
def OptionsCheckDefinitions (defined options : Value) : Except PyErr Unit :=
  optionsCheckRec [] defined options

/-- `OptionsBase.__init__`: stores both trees after eagerly running
`OptionsCheckDefinitions` (`kubragen/options.py`).  The `Options`
subclass only supplies `defined_options` via `define_options()` and is
otherwise identical. -/
def OptionsBase.make (defined options : Value) : Except PyErr OptionsBase :=
  match OptionsCheckDefinitions defined options with
  | .error e => .error e
  | .ok _ => .ok ⟨defined, options⟩

/-- `OptionsBase.value_definition_get(name)`: find the definition in the
schema; take the value from `options` when the dotted name is present
there, else fall back to the definition itself.  The `repr` payload of
the invalid-definition message is elided. -/
def OptionsBase.value_definition_get (s : OptionsBase) (name : String) :
    Except PyErr (Value × Value) :=
  match dict_get_value s.defined_options name with
  | .error e => .error e
  | .ok definition =>
      if ¬definition.isOption then
        .error (.optionError "Invalid option definition type")
      else if s.options.isNone then .ok (definition, definition)
      else
        match dict_has_name s.options name with
        | .error e => .error e
        | .ok has =>
            if has then
              match dict_get_value s.options name with
              | .error e => .error e
              | .ok v => .ok (definition, v)
            else .ok (definition, definition)

/-- `OptionsBase.value_get(name)`. -/
def OptionsBase.value_get (s : OptionsBase) (name : String) : Except PyErr Value :=
  if s.defined_options.isNone then dict_get_value s.options name
  else
    match s.value_definition_get name with
    | .error e => .error e
    | .ok dv => .ok dv.2

/-- `OptionDefaultValue.get_value(name, base_option)` from
`kubragen/option.py`: the default value of the base option when it is an
`OptionDef`, else the base option itself. -/
def optionDefaultValueGet (base_option : Value) : Value :=
  match base_option with
  | .optionDef _ dv _ => dv
  | b => b

/-- The message of the allowed-types `TypeError` in `option_root_get`:
when the option is not required a `None` entry is prepended to the
printed list. -/
def allowedTypesMsg (value : Value) (name : String) (req : Bool)
    (allowed : Option (List PyTy)) : String :=
  let tprint : List String :=
    (if ¬req then ["NoneType"] else []) ++ (allowed.getD []).map pyTyName
  "Type \"" ++ type_name value ++ "\" for option \"" ++ name ++
    "\" is not in the allowed types (" ++
    String.intercalate ", " (tprint.map fun s => "\"" ++ s ++ "\"") ++ ")"

/-- The type-validation step of `option_root_get`: skipped entirely for
`Data` values; for an `OptionDef` definition a failing
`is_allowed_types` raises the required-option `TypeError` when no
allowed types were declared (or a required value is `None`), and the
allowed-types `TypeError` otherwise. -/
def optionTypeCheck (definition value : Value) (name : String) : Except PyErr Unit :=
  if value.isData then .ok ()
  else
    match definition with
    | .optionDef req _ allowed =>
        if is_allowed_types value allowed (some req) then .ok ()
        else if allowed.isNone || (value.isNone && req) then
          .error (.typeError ("Option \"" ++ name ++ "\" is required"))
        else .error (.typeError (allowedTypesMsg value name req allowed))
    | _ => .ok ()

/-- `option_root_get(options, name, root_options, handle_data)` from
`kubragen/options.py`: look up `(definition, value)`; dereference an
`OptionRoot` against the root store (failing with `TypeError` when no
root store was supplied); substitute an `OptionDef` by its default
value; evaluate an `OptionValue` (the model carries the concrete
`OptionDefaultValue` subclass); validate the type; finally resolve
`Data` wrappers via `DataClean(value, in_place=False)` when
`handle_data` is set. -/
def option_root_get (options : OptionsBase) (name : String)
    (root_options : Option OptionsBase := none) (handle_data : Bool := true) :
    Except PyErr Value :=
  match options.value_definition_get name with
  | .error e => .error e
  | .ok (definition, value0) =>
      let deref : Except PyErr Value :=
        match value0 with
        | .optionRoot rname =>
            match root_options with
            | none => .error (.typeError "Cannot get option from root")
            | some ro => ro.value_get rname
        | v => .ok v
      match deref with
      | .error e => .error e
      | .ok value1 =>
          let value2 :=
            match value1 with
            | .optionDef _ dv _ => dv
            | v => v
          let value3 :=
            match value2 with
            | .optionDefaultValue => optionDefaultValueGet definition
            | v => v
          match optionTypeCheck definition value3 name with
          | .error e => .error e
          | .ok _ => if handle_data then .ok (DataClean value3) else .ok value3

-- scratch: options sanity checks mirroring src/tests/test_options.py
example :
    (OptionsBase.mk .vnone (.vmap [("foo", .vmap [("bar", .vstr "baz")])])).value_get
      "foo.bar" = .ok (.vstr "baz") := by decide

example :
    OptionsBase.make (.vmap [("foo", .vmap [("bar", .optionDef false (.vstr "baz") none)])])
      (.vmap [("foo", .vmap [("nobar", .vstr "nobaz")])]) =
    .error (.optionError "Unknown option: \"foo.nobar\"") := by decide

example :
    option_root_get (OptionsBase.mk
      (.vmap [("foo", .vmap [("bar", .optionDef false (.vstr "baz") none)])])
      (.vmap [("foo", .vmap [])])) "foo.bar" none true = .ok (.vstr "baz") := by decide

example :
    option_root_get (OptionsBase.mk
      (.vmap [("foo", .vmap [("bar", .optionDef true .vnone none)])])
      (.vmap [("foo", .vmap [])])) "foo.bar" none true =
    .error (.typeError "Option \"foo.bar\" is required") := by decide

example :
    option_root_get (OptionsBase.mk
      (.vmap [("foo", .vmap [("bar", .optionDef true .vnone (some [.pstr, .pint]))])])
      (.vmap [("foo", .vmap [("bar", .vseq [])])])) "foo.bar" none true =
    .error (.typeError
      "Type \"list\" for option \"foo.bar\" is not in the allowed types (\"str\", \"int\")") := by
  decide

example :
    option_root_get (OptionsBase.mk
      (.vmap [("foo", .vmap [("bar", .optionDef false (.vstr "baz") none)])])
      (.vmap [("foo", .vmap [("bar", .optionDefaultValue)])])) "foo.bar" none true =
    .ok (.vstr "baz") := by decide

example :
    option_root_get (OptionsBase.mk
      (.vmap [("foo", .vmap [("bar", .optionDef true .vnone none)])])
      (.vmap [("foo", .vmap [("bar", .optionRoot "root_bar")])])) "foo.bar"
      (some (OptionsBase.mk .vnone (.vmap [("root_bar", .vstr "baz")]))) true =
    .ok (.vstr "baz") := by decide

/-! ## The merge engines

`kubragen/merger.py` and `kubragen/private/jsonpatch.py` configure the
external `deepmerge` library: `Merger` (lists append, dicts merge with
key creation), `MergerNoCreate` (dict strategy list
`[option_check_key_exist, "merge"]`), and `jsonpatch_merge` (the
`JSONPatchMerger` subclass with `Data`/`HelperStr` handling plus the
`jsonpatch_merge_fallback`).  The `deepmerge` engine itself is not part
of this repository, so its dispatch is modelled from the spec below;
everything strategy-specific is translated from the repository sources.
-/

/-- Which configured merger is running: `Merger`, `MergerNoCreate` or
`jsonpatch_merge`. -/
inductive MergeFlavor where
  | permissive
  | noCreate
  | jsonpatch
deriving DecidableEq, Repr

/-- `HelperStrNewInstance(base, value)` from `kubragen/helper.py`: the
value wrapped in the tag class of the base.  (The `InvalidParamError`
branch for an unknown `HelperStr` subclass is unreachable here because
`HTag` enumerates exactly the five concrete subclasses.) -/
def HelperStrNewInstance (base : HTag) (value : String) : Value :=
  .helperStr base value

/-- `option_check_key_exist` from `kubragen/private/merger.py`: every
key of the incoming dict must already exist in the base dict, else an
"unknown option" `OptionError` naming the dotted path is raised; when
all keys exist the strategy yields to the normal `"merge"` strategy. -/
def checkKeys (path : List String) (bs : List (String × Value)) :
    List (String × Value) → Except PyErr Unit
  | [] => .ok ()
  | (k, _) :: rest =>
      if akey bs k then checkKeys path bs rest
      else .error (.optionError ("Unknown option: \"" ++
        String.intercalate "." (path ++ [k]) ++ "\""))

/-- The base-value preprocessing of `JSONPatchMerger.value_strategy`
(`kubragen/private/jsonpatch.py`), applied only by the `jsonpatch`
flavor: a `Data` base is replaced by its value when enabled, by an empty
container of the value's shape (or `None`) when disabled; when both base
and incoming are `HelperStr`, the base is downgraded to a plain `str` so
the incoming tag wins.  The other flavors use the plain
`deepmerge.Merger` dispatch with the base unchanged. -/
def jpBase : MergeFlavor → Value → Value → Value
  | .jsonpatch, .vdata true p, _ => p
  | .jsonpatch, .vdata false p, _ =>
      match p with
      | .vmap _ => .vmap []
      | .vseq _ => .vseq []
      | _ => .vnone
  | .jsonpatch, .helperStr t s, nxt => if nxt.isHelperStr then .vstr s else .helperStr t s
  | _, b, _ => b

/-- Modelled from the spec: the fallback chain consulted for scalar
leaves (the `deepmerge` fallback-strategies list, external to this
repository).  For `Merger`/`MergerNoCreate` the chain is
`['override', option_merge_fallback]` and the named `override` strategy
always produces the incoming value, so `option_merge_fallback` is
unreachable.  For `jsonpatch_merge` the chain is
`[jsonpatch_merge_fallback, jsonpatchext.merge_fallback]`:
`jsonpatch_merge_fallback` (translated from
`kubragen/private/jsonpatch.py`) handles two strings, wrapping a plain
incoming string in the tag of a tagged base and otherwise overriding;
`jsonpatchext.merge_fallback` (external) overrides with the incoming
value, per the spec's "plain strings overwrite normally". -/
def fallbackChain (fl : MergeFlavor) (base nxt : Value) : Except PyErr Value :=
  match fl with
  | .permissive | .noCreate => .ok nxt
  | .jsonpatch =>
      if base.isStr && nxt.isStr then
        match base, nxt with
        | .helperStr t _, .vstr s => .ok (HelperStrNewInstance t s)
        | _, _ => .ok nxt
      else .ok nxt

/-- Modelled from the spec: the type-conflict strategies (the
`deepmerge` conflict list, external to this repository).  For
`Merger`/`MergerNoCreate` this is `option_type_conflict` from
`kubragen/private/merger.py`, a fatal `MergeError` naming the dotted
path (the `repr` payloads of the message are elided); for
`jsonpatch_merge` it is `jsonpatchext.merge_type_conflict` (external),
modelled as overriding with the incoming value. -/
def conflictStrategy (fl : MergeFlavor) (path : List String) (nxt : Value) :
    Except PyErr Value :=
  match fl with
  | .permissive | .noCreate =>
      if path.isEmpty then .error (.mergeError "Type conflict")
      else .error (.mergeError ("Type conflict at '" ++ String.intercalate "." path ++ "'"))
  | .jsonpatch => .ok nxt

mutual

/-- Modelled from the spec: `deepmerge.Merger.value_strategy` (external
to this repository) as configured by `kubragen/merger.py` and
`kubragen/private/jsonpatch.py`.  Per-type strategies: an incoming list
appends to a list base; an incoming dict merges into a dict base
(running `option_check_key_exist` first for the strict flavor); a
container/non-container mismatch is a type conflict; scalar leaves go
through the fallback chain.  The `jsonpatch` flavor first applies the
`JSONPatchMerger` base preprocessing (`jpBase`). -/
def mergeValue (fl : MergeFlavor) (path : List String) (base : Value) :
    Value → Except PyErr Value
  | .vseq xs =>
      match jpBase fl base (.vseq xs) with
      | .vseq ys => .ok (.vseq (ys ++ xs))
      | _ => conflictStrategy fl path (.vseq xs)
  | .vmap es =>
      match jpBase fl base (.vmap es) with
      | .vmap bs =>
          match (if fl = .noCreate then checkKeys path bs es else .ok ()) with
          | .error e => .error e
          | .ok _ =>
              match mergeEntries fl path bs es with
              | .error e => .error e
              | .ok r => .ok (.vmap r)
      | _ => conflictStrategy fl path (.vmap es)
  | nxt =>
      match jpBase fl base nxt with
      | .vmap _ => conflictStrategy fl path nxt
      | .vseq _ => conflictStrategy fl path nxt
      | b => fallbackChain fl b nxt

/-- `DictStrategies.strategy_merge` of `deepmerge` (modelled from the
spec): walk the incoming dict's entries in order; a key absent from the
base is created at the end (dict insertion order); an existing key's
value is merged recursively with the path extended by the key. -/
def mergeEntries (fl : MergeFlavor) (path : List String)
    (bs : List (String × Value)) : List (String × Value) → Except PyErr (List (String × Value))
  | [] => .ok bs
  | (k, v) :: rest =>
      match aget bs k with
      | none => mergeEntries fl path (bs ++ [(k, v)]) rest
      | some bv =>
          match mergeValue fl (path ++ [k]) bv v with
          | .error e => .error e
          | .ok m => mergeEntries fl path (aset bs k m) rest

end

/-- `Merger.merge(base, nxt)` (`kubragen/merger.py`): the permissive
merger that creates missing dict keys. -/
def Merger_merge (base nxt : Value) : Except PyErr Value :=
  mergeValue .permissive [] base nxt

/-- `MergerNoCreate.merge(base, nxt)` (`kubragen/merger.py`): the strict
merger that rejects dict keys absent from the base. -/
def MergerNoCreate_merge (base nxt : Value) : Except PyErr Value :=
  mergeValue .noCreate [] base nxt

/-- `jsonpatch_merge.merge(base, nxt)`
(`kubragen/private/jsonpatch.py`): the `Data`- and `HelperStr`-aware
merger used by the `merge` patch operation. -/
def jsonpatch_merge (base nxt : Value) : Except PyErr Value :=
  mergeValue .jsonpatch [] base nxt

/-! ## `kubragen/jsonpatch.py`: object filters -/

/-- An `ObjectItem`: either an `Object` (a dict subclass from
`kubragen/object.py` carrying `name`/`source`/`instance` metadata) or a
raw dict. -/
inductive ObjectItem where
  | obj (data : Value) (name : Option String) (source : Option String)
      (inst : Option String)
  | raw (data : Value)

/-- `ObjectFilter` (`kubragen/jsonpatch.py`): optional membership lists
for the object's name, source and instance, and an optional list of
callables.  The constructor's scalar-to-list wrapping is left to the
caller of the model. -/
structure ObjectFilter where
  names : Option (List String)
  sources : Option (List String)
  instances : Option (List String)
  callables : Option (List (ObjectItem → Bool))

/-- The test `object.name not in self.names` (and its source/instance
analogues): vacuously true when no list was given; an `Object` whose
attribute is `None` is never a member of the list. -/
def fieldMember (field : Option (List String)) (attr : Option String) : Bool :=
  match field with
  | none => true
  | some vs =>
      match attr with
      | some s => vs.contains s
      | none => false

/-- `ObjectFilter.is_include(object)` (`kubragen/jsonpatch.py`): a
non-`Object` document is rejected as soon as any of
`names`/`sources`/`instances` is populated; all populated attribute
lists must contain the object's attribute; when callables are given, at
least one must accept. -/
def ObjectFilter.is_include (f : ObjectFilter) (object : ObjectItem) : Bool :=
  match object with
  | .raw _ =>
      if f.names.isSome || f.sources.isSome || f.instances.isSome then false
      else
        match f.callables with
        | some cs => cs.any fun c => c object
        | none => true
  | .obj _ nm src inst =>
      if ¬fieldMember f.names nm then false
      else if ¬fieldMember f.sources src then false
      else if ¬fieldMember f.instances inst then false
      else
        match f.callables with
        | some cs => cs.any fun c => c object
        | none => true

/-- One element of the `filters` list accepted by `ObjectFilterCheck`:
an `ObjectFilterBase` instance or a bare callable.  (A mapping filter is
converted by `ObjectFilterFromDict` into an `ObjectFilter` before
checking, and any other type raises, so the closed model keeps the two
effective shapes.) -/
inductive PatchFilter where
  | flt (f : ObjectFilter)
  | func (c : ObjectItem → Bool)

/-- Acceptance of one filter-list element. -/
def patchFilterAccepts (object : ObjectItem) : PatchFilter → Bool
  | .flt f => f.is_include object
  | .func c => c object

/-- `ObjectFilterCheck(object, filters)` (`kubragen/jsonpatch.py`): a
`None` filter list accepts everything, otherwise at least one filter in
the list must accept (`FilterJSONPatches_Apply` applies a patch spec's
operations to a document exactly when this returns true). -/
def ObjectFilterCheck (object : ObjectItem) (filters : Option (List PatchFilter)) : Bool :=
  match filters with
  | none => true
  | some fs => fs.any (patchFilterAccepts object)

/-! ## Helper lemmas -/

theorem akey_eq_isSome (es : List (String × Value)) (k : String) :
    akey es k = (aget es k).isSome := by
  induction es with
  | nil => rfl
  | cons kv rest ih =>
      obtain ⟨k', v⟩ := kv
      by_cases hk : k' = k <;> simp [akey, aget, hk, ih]

theorem DataGetValue_false_eq_pure : ∀ v : Value,
    DataGetValue v false = .ok (dataGetValuePure v)
  | .vnone => rfl
  | .vint _ => rfl
  | .vbool _ => rfl
  | .vstr _ => rfl
  | .helperStr _ _ => rfl
  | .vmap _ => rfl
  | .vseq _ => rfl
  | .vdata false _ => rfl
  | .vdata true p => DataGetValue_false_eq_pure p
  | .optionDef _ _ _ => rfl
  | .optionRoot _ => rfl
  | .optionDefaultValue => rfl

/-- A chain of enabled `Data` wrappers ending at a disabled `Data`:
the values whose payload "is (or transitively wraps) a disabled Data". -/
def wrapsDisabled : Value → Bool
  | .vdata false _ => true
  | .vdata true p => wrapsDisabled p
  | _ => false

theorem wrapsDisabled_pure : ∀ v : Value, wrapsDisabled v = true →
    dataGetValuePure v = .vnone
  | .vnone, h => by simp [wrapsDisabled] at h
  | .vint _, h => by simp [wrapsDisabled] at h
  | .vbool _, h => by simp [wrapsDisabled] at h
  | .vstr _, h => by simp [wrapsDisabled] at h
  | .helperStr _ _, h => by simp [wrapsDisabled] at h
  | .vmap _, h => by simp [wrapsDisabled] at h
  | .vseq _, h => by simp [wrapsDisabled] at h
  | .vdata false _, _ => rfl
  | .vdata true p, h => wrapsDisabled_pure p h
  | .optionDef _ _ _, h => by simp [wrapsDisabled] at h
  | .optionRoot _, h => by simp [wrapsDisabled] at h
  | .optionDefaultValue, h => by simp [wrapsDisabled] at h

theorem dict_get_value_single (es : List (String × Value)) (n : String)
    (h : pySplitDot n = [n]) :
    dict_get_value (.vmap es) n =
      match aget es n with
      | some v => .ok v
      | none => .error (.optionError ("Could not find option \"" ++ n ++ "\"")) := by
  unfold dict_get_value
  rw [h]
  cases hv : aget es n <;>
    simp [dict_get_value_go, pyContains, Value.isMapping, akey_eq_isSome, hv,
      dict_get_value_go]

theorem dict_has_name_single (es : List (String × Value)) (n : String)
    (h : pySplitDot n = [n]) :
    dict_has_name (.vmap es) n = .ok (akey es n) := by
  unfold dict_has_name
  rw [h]
  cases hv : aget es n <;>
    simp [dict_has_name_go, pyContains, akey_eq_isSome, hv]

/-! ## Claim theorems -/

/-- C10: `DataGetValue`'s `raise_if_disabled` flag applies only to the
outermost value: for every enabled `Data` whose payload is (or
transitively wraps) a disabled `Data`, `DataGetValue` with
`raise_if_disabled=True` does not raise `InvalidOperationError` — the
nested disabled wrapper resolves silently to `None`, because the flag is
not passed into the recursive call on the payload. -/
theorem DataGetValue_nested_disabled_silent (v : Value)
    (h : wrapsDisabled v = true) :
    DataGetValue (.vdata true v) true = .ok .vnone := by
  have hstep : DataGetValue (.vdata true v) true = DataGetValue v false := rfl
  rw [hstep, DataGetValue_false_eq_pure, wrapsDisabled_pure v h]

/-- Witness for C10 at the concrete input
`ValueData(DisabledData(), enabled=True)`. -/
theorem DataGetValue_nested_disabled_silent_witness :
    wrapsDisabled (.vdata false (.vstr "x")) = true ∧
    DataGetValue (.vdata true (.vdata false (.vstr "x"))) true = .ok .vnone :=
  ⟨by decide, DataGetValue_nested_disabled_silent (.vdata false (.vstr "x")) (by decide)⟩

/-- C7: constructing an options store with schema
`{foo: {bar: OptionDef}}` and values `{foo: {nobar: 1}}` raises an
"unknown option" error naming the dotted path `foo.nobar`; the check
runs eagerly at construction (inside `OptionsBase.make`), recurses
through nested mappings, stops at schema leaves that are `Option`
instances (third conjunct), and performs no allowed-types validation
(second conjunct: an `int` value against a `str`-only `OptionDef`
constructs fine). -/
theorem OptionsBase_make_unknown_option :
    OptionsBase.make (.vmap [("foo", .vmap [("bar", .optionDef false .vnone none)])])
        (.vmap [("foo", .vmap [("nobar", .vint 1)])]) =
      .error (.optionError "Unknown option: \"foo.nobar\"") ∧
    OptionsBase.make (.vmap [("foo", .optionDef false .vnone (some [.pstr]))])
        (.vmap [("foo", .vint 1)]) =
      .ok ⟨.vmap [("foo", .optionDef false .vnone (some [.pstr]))],
           .vmap [("foo", .vint 1)]⟩ ∧
    OptionsBase.make (.vmap [("foo", .optionDef false .vnone none)])
        (.vmap [("foo", .vmap [("nobar", .vint 1)])]) =
      .ok ⟨.vmap [("foo", .optionDef false .vnone none)],
           .vmap [("foo", .vmap [("nobar", .vint 1)])]⟩ :=
  ⟨by decide, by decide, by decide⟩

/-- C1: resolution through `option_root_get` for any dot-free option
name `n`: a schema mapping `n` to an `OptionDef` with default `'baz'`
and no override yields `'baz'`; an override `OptionRoot('x')` resolved
against a root store holding `x: 'q'` yields `'q'`; the same override
without a root store raises `TypeError('Cannot get option from root')`;
and a `required=True` definition with no default and no override raises
the required-option `TypeError`. -/
theorem option_root_get_resolution (n : String) (h : pySplitDot n = [n]) :
    option_root_get ⟨.vmap [(n, .optionDef false (.vstr "baz") none)], .vmap []⟩
      n none true = .ok (.vstr "baz") ∧
    option_root_get ⟨.vmap [(n, .optionDef false (.vstr "baz") none)],
        .vmap [(n, .optionRoot "x")]⟩ n
      (some ⟨.vnone, .vmap [("x", .vstr "q")]⟩) true = .ok (.vstr "q") ∧
    option_root_get ⟨.vmap [(n, .optionDef false (.vstr "baz") none)],
        .vmap [(n, .optionRoot "x")]⟩ n none true =
      .error (.typeError "Cannot get option from root") ∧
    option_root_get ⟨.vmap [(n, .optionDef true .vnone none)], .vmap []⟩
      n none true =
      .error (.typeError ("Option \"" ++ n ++ "\" is required")) := by
  have hq : OptionsBase.value_get ⟨.vnone, .vmap [("x", .vstr "q")]⟩ "x" =
      .ok (.vstr "q") := by decide
  refine ⟨?_, ?_, ?_, ?_⟩ <;>
    simp [option_root_get, OptionsBase.value_definition_get,
      dict_get_value_single _ _ h, dict_has_name_single _ _ h, aget, akey,
      Value.isOption, Value.isNone, Value.isData, optionTypeCheck,
      is_allowed_types, DataClean, dataGetValuePure, optionDefaultValueGet, hq]

/-- Witness for C1 at the concrete name `bar`. -/
theorem option_root_get_resolution_witness :
    pySplitDot "bar" = ["bar"] ∧
    option_root_get ⟨.vmap [("bar", .optionDef false (.vstr "baz") none)], .vmap []⟩
      "bar" none true = .ok (.vstr "baz") :=
  ⟨by decide, (option_root_get_resolution "bar" (by decide)).1⟩

/-- C6: when the merge engine combines two string leaves (at any path):
both tagged — the incoming value with the incoming tag wins; base tagged
and incoming plain — the incoming content is wrapped in the base's tag
class via `HelperStrNewInstance`; both plain — the incoming string
overwrites. -/
theorem jsonpatch_merge_tagged_strings (t1 t2 : HTag) (s1 s2 : String)
    (path : List String) :
    mergeValue .jsonpatch path (.helperStr t1 s1) (.helperStr t2 s2) =
      .ok (.helperStr t2 s2) ∧
    mergeValue .jsonpatch path (.helperStr t1 s1) (.vstr s2) =
      .ok (HelperStrNewInstance t1 s2) ∧
    mergeValue .jsonpatch path (.vstr s1) (.vstr s2) = .ok (.vstr s2) := by
  refine ⟨?_, ?_, ?_⟩ <;>
    simp [mergeValue, jpBase, fallbackChain, Value.isHelperStr, Value.isStr,
      HelperStrNewInstance]

/-- The acceptance condition of one `ObjectFilter` as the claim states
it: every populated field among `names`, `sources` and `instances` must
match the document's corresponding attribute, populated callables need
at least one acceptance, a filter with no populated fields accepts every
document, and a document that is not a named `Object` is rejected by any
filter populating `names`, `sources` or `instances`. -/
def ObjectFilterSpecAccepts (f : ObjectFilter) (object : ObjectItem) : Bool :=
  match object with
  | .raw _ =>
      if f.names.isSome || f.sources.isSome || f.instances.isSome then false
      else
        match f.callables with
        | some cs => cs.any fun c => c object
        | none => true
  | .obj _ nm src inst =>
      fieldMember f.names nm && fieldMember f.sources src &&
      fieldMember f.instances inst &&
      (match f.callables with
       | some cs => cs.any fun c => c object
       | none => true)

/-- C8: a patch spec's operations are applied to a document iff its
filter list is `None` or at least one filter in the list accepts the
document (`ObjectFilterCheck` gates the application loop in
`FilterJSONPatches_Apply`); within one `ObjectFilter`, acceptance is
exactly `ObjectFilterSpecAccepts` (AND over populated attribute fields,
at least one callable, empty filter permissive, raw documents rejected
by attribute filters); and an entirely empty filter accepts every
document. -/
theorem ObjectFilter_semantics (f : ObjectFilter) (o : ObjectItem)
    (filters : Option (List PatchFilter)) :
    f.is_include o = ObjectFilterSpecAccepts f o ∧
    (ObjectFilterCheck o filters = true ↔
      filters = none ∨ ∃ pf, pf ∈ filters.getD [] ∧ patchFilterAccepts o pf = true) ∧
    ObjectFilter.is_include ⟨none, none, none, none⟩ o = true := by
  refine ⟨?_, ?_, ?_⟩
  · cases o with
    | raw d => rfl
    | obj d nm src inst =>
        by_cases h1 : fieldMember f.names nm <;>
          by_cases h2 : fieldMember f.sources src <;>
            by_cases h3 : fieldMember f.instances inst <;>
              simp [ObjectFilter.is_include, ObjectFilterSpecAccepts, h1, h2, h3]
  · cases filters with
    | none => simp [ObjectFilterCheck]
    | some fs => simp [ObjectFilterCheck, List.any_eq_true]
  · cases o <;> simp [ObjectFilter.is_include, fieldMember]

theorem akey_iff_mem (es : List (String × Value)) (k : String) :
    akey es k = true ↔ k ∈ es.map Prod.fst := by
  induction es with
  | nil => simp [akey]
  | cons kv rest ih =>
      obtain ⟨k', v⟩ := kv
      simp only [akey, Bool.or_eq_true, decide_eq_true_eq, ih, List.map_cons,
        List.mem_cons]
      constructor <;> rintro (h | h)
      · exact Or.inl h.symm
      · exact Or.inr h
      · exact Or.inl h.symm
      · exact Or.inr h

theorem aget_eq_none_iff (es : List (String × Value)) (k : String) :
    aget es k = none ↔ k ∉ es.map Prod.fst := by
  rw [← akey_iff_mem es k, akey_eq_isSome es k]
  cases aget es k <;> simp

/-- The first key of the incoming dict that is missing from the base
dict, in the incoming dict's iteration order (the key at which
`option_check_key_exist` raises). -/
def firstMissingKey (bs : List (String × Value)) :
    List (String × Value) → Option String
  | [] => none
  | (k, _) :: rest => if akey bs k then firstMissingKey bs rest else some k

theorem checkKeys_of_firstMissingKey (path : List String)
    (bs : List (String × Value)) :
    ∀ (es : List (String × Value)) (k : String), firstMissingKey bs es = some k →
      checkKeys path bs es = .error (.optionError ("Unknown option: \"" ++
        String.intercalate "." (path ++ [k]) ++ "\"")) := by
  intro es
  induction es with
  | nil => intro k hk; simp [firstMissingKey] at hk
  | cons kv rest ih =>
      obtain ⟨k', v⟩ := kv
      intro k hk
      by_cases hmem : akey bs k'
      · rw [firstMissingKey] at hk
        simp only [hmem, if_true] at hk
        simp [checkKeys, hmem, ih k hk]
      · rw [firstMissingKey] at hk
        simp only [hmem, Bool.false_eq_true, if_false, Option.some.injEq] at hk
        cases hk
        simp [checkKeys, hmem]

theorem mergeEntries_disjoint (fl : MergeFlavor) (path : List String) :
    ∀ (b a : List (String × Value)),
      (∀ kb ∈ b.map Prod.fst, kb ∉ a.map Prod.fst) →
      (b.map Prod.fst).Nodup →
      mergeEntries fl path a b = .ok (a ++ b) := by
  intro b
  induction b with
  | nil => intro a _ _; simp [mergeEntries]
  | cons kv rest ih =>
      obtain ⟨k, v⟩ := kv
      intro a hdisj hnodup
      rw [List.map_cons, List.nodup_cons] at hnodup
      have hk : aget a k = none := by
        rw [aget_eq_none_iff]
        exact hdisj k (by simp)
      rw [mergeEntries, hk]
      have hdisj' : ∀ kb ∈ rest.map Prod.fst, kb ∉ (a ++ [(k, v)]).map Prod.fst := by
        intro kb hkb
        rw [List.map_append, List.mem_append]
        rintro (hin | hone)
        · exact hdisj kb (by simp [hkb]) hin
        · rw [List.map_cons, List.map_nil, List.mem_singleton] at hone
          subst hone
          exact hnodup.1 hkb
      rw [ih (a ++ [(k, v)]) hdisj' hnodup.2]
      simp

theorem jpBase_permissive (b nxt : Value) : jpBase .permissive b nxt = b := by
  cases b <;> rfl

theorem jpBase_noCreate (b nxt : Value) : jpBase .noCreate b nxt = b := by
  cases b <;> rfl

theorem mergeValue_permissive_map (path : List String)
    (bs es : List (String × Value)) :
    mergeValue .permissive path (.vmap bs) (.vmap es) =
      (match mergeEntries .permissive path bs es with
       | .error e => Except.error e
       | .ok r => .ok (.vmap r)) := by
  rw [mergeValue, jpBase_permissive]
  rfl

theorem mergeValue_noCreate_map (path : List String)
    (bs es : List (String × Value)) :
    mergeValue .noCreate path (.vmap bs) (.vmap es) =
      (match checkKeys path bs es with
       | .error e => Except.error e
       | .ok _ =>
           match mergeEntries .noCreate path bs es with
           | .error e => Except.error e
           | .ok r => .ok (.vmap r)) := by
  rw [mergeValue, jpBase_noCreate]
  rfl

/-- C2: for mappings with disjoint keys the permissive `Merger.merge`
creates every key of the incoming dict in the base, so the result is
exactly the union (base entries followed by incoming entries); and at
any nesting level reached by the strict merge (any `path` at which the
`MergerNoCreate` engine merges two dicts), an incoming key absent from
the base raises the "unknown option" error naming the dotted path of
the first such key. -/
theorem Merger_disjoint_union_strict_unknown
    (a b : List (String × Value)) (path : List String)
    (bs es : List (String × Value)) (k : String)
    (hdisj : ∀ kb ∈ b.map Prod.fst, kb ∉ a.map Prod.fst)
    (hnodup : (b.map Prod.fst).Nodup)
    (hmiss : firstMissingKey bs es = some k) :
    Merger_merge (.vmap a) (.vmap b) = .ok (.vmap (a ++ b)) ∧
    mergeValue .noCreate path (.vmap bs) (.vmap es) =
      .error (.optionError ("Unknown option: \"" ++
        String.intercalate "." (path ++ [k]) ++ "\"")) := by
  constructor
  · rw [Merger_merge, mergeValue_permissive_map,
      mergeEntries_disjoint .permissive [] b a hdisj hnodup]
  · rw [mergeValue_noCreate_map, checkKeys_of_firstMissingKey path bs es k hmiss]

/-- Witness for C2 at concrete disjoint dicts and a concrete missing
key one level down. -/
theorem Merger_disjoint_union_strict_unknown_witness :
    Merger_merge (.vmap [("a", .vint 1)]) (.vmap [("b", .vint 2)]) =
      .ok (.vmap [("a", .vint 1), ("b", .vint 2)]) ∧
    mergeValue .noCreate ["a"] (.vmap [("x", .vint 1)]) (.vmap [("y", .vint 2)]) =
      .error (.optionError "Unknown option: \"a.y\"") := by
  have h := Merger_disjoint_union_strict_unknown [("a", .vint 1)] [("b", .vint 2)]
    ["a"] [("x", .vint 1)] [("y", .vint 2)] "y" (by decide) (by decide) (by decide)
  exact ⟨h.1, h.2⟩

theorem cleanEntries_append (a b : List (String × Value)) :
    cleanEntries (a ++ b) = cleanEntries a ++ cleanEntries b := by
  induction a with
  | nil => simp [cleanEntries]
  | cons kv rest ih =>
      obtain ⟨k, v⟩ := kv
      cases v
      case vdata e p => cases e <;> simp [cleanEntries, ih]
      all_goals simp [cleanEntries, ih]

theorem cleanItems_append (a b : List Value) :
    cleanItems (a ++ b) = cleanItems a ++ cleanItems b := by
  induction a with
  | nil => simp [cleanItems]
  | cons v rest ih =>
      cases v
      case vdata e p => cases e <;> simp [cleanItems, ih]
      all_goals simp [cleanItems, ih]

theorem cleanEntries_cons (k' : String) (v : Value) (rest : List (String × Value)) :
    cleanEntries ((k', v) :: rest) =
      (match v with
       | .vdata false _ => cleanEntries rest
       | .vdata true p => (k', cleanSub p) :: cleanEntries rest
       | v => (k', cleanSub v) :: cleanEntries rest) := by
  cases v
  case vdata e p => cases e <;> rfl
  all_goals rfl

theorem cleanItems_cons (v : Value) (rest : List Value) :
    cleanItems (v :: rest) =
      (match v with
       | .vdata false _ => cleanItems rest
       | .vdata true p => cleanSub p :: cleanItems rest
       | v => cleanSub v :: cleanItems rest) := by
  cases v
  case vdata e p => cases e <;> rfl
  all_goals rfl

theorem mem_keys_cleanEntries (es : List (String × Value)) (k : String) :
    k ∈ (cleanEntries es).map Prod.fst → k ∈ es.map Prod.fst := by
  induction es with
  | nil => intro h; simp [cleanEntries] at h
  | cons kv rest ih =>
      obtain ⟨k', v⟩ := kv
      intro h
      cases v
      case vdata e p =>
        cases e
        · simp only [cleanEntries_cons] at h
          exact List.mem_cons_of_mem _ (ih h)
        · simp only [cleanEntries_cons, List.map_cons, List.mem_cons] at h
          rw [List.map_cons, List.mem_cons]
          exact h.imp id ih
      all_goals
        simp only [cleanEntries_cons, List.map_cons, List.mem_cons] at h
        rw [List.map_cons, List.mem_cons]
        exact h.imp id ih

/-- C4: a disabled `Data` sitting at a mapping key is deleted outright
by `DataClean` (the cleaned tree equals the cleaned tree without the
entry, and the key is entirely absent from the result when no other
entry shares it); a disabled `Data` at a sequence position is removed
with all subsequent elements shifting down (the cleaned sequence equals
the cleaned sequence without the element — the reverse-order index
iteration of the source makes deletion safe, and its functional result
is exactly this elementwise removal). -/
theorem DataClean_disabled_removed
    (pre post : List (String × Value)) (ipre ipost : List Value)
    (k : String) (w w' : Value)
    (hk : k ∉ (pre ++ post).map Prod.fst) :
    DataClean (.vmap (pre ++ (k, .vdata false w) :: post)) =
      DataClean (.vmap (pre ++ post)) ∧
    k ∉ (cleanEntries (pre ++ (k, .vdata false w) :: post)).map Prod.fst ∧
    DataClean (.vseq (ipre ++ .vdata false w' :: ipost)) =
      DataClean (.vseq (ipre ++ ipost)) := by
  refine ⟨?_, ?_, ?_⟩
  · simp [DataClean, cleanEntries_append, cleanEntries]
  · intro hmem
    rw [cleanEntries_append, cleanEntries] at hmem
    rw [List.map_append, List.mem_append] at hmem
    rw [List.map_append, List.mem_append] at hk
    rcases hmem with h | h
    · exact hk (Or.inl (mem_keys_cleanEntries pre k h))
    · exact hk (Or.inr (mem_keys_cleanEntries post k h))
  · simp [DataClean, cleanItems_append, cleanItems]

/-- Witness for C4 at a concrete mapping and sequence. -/
theorem DataClean_disabled_removed_witness :
    DataClean (.vmap [("p", .vint 1), ("d", .vdata false .vnone), ("q", .vint 2)]) =
      DataClean (.vmap [("p", .vint 1), ("q", .vint 2)]) ∧
    "d" ∉ (cleanEntries [("p", .vint 1), ("d", .vdata false .vnone),
      ("q", .vint 2)]).map Prod.fst ∧
    DataClean (.vseq [.vint 1, .vdata false .vnone, .vint 3]) =
      DataClean (.vseq [.vint 1, .vint 3]) :=
  DataClean_disabled_removed [("p", .vint 1)] [("q", .vint 2)]
    [.vint 1] [.vint 3] "d" .vnone .vnone (by decide)

/-- `isinstance(v, (MutableMapping, MutableSequence))`: the tree shapes
`DataClean` recurses into. -/
def Value.isContainer : Value → Bool
  | .vmap _ => true
  | .vseq _ => true
  | _ => false

mutual

/-- No `Data` wrapper occurs anywhere in the tree (recursing through
mappings, sequences and `Data` payloads; other leaves are opaque to
`DataClean` and count as free). -/
def dataFree : Value → Bool
  | .vdata _ _ => false
  | .vmap es => dataFreeEntries es
  | .vseq xs => dataFreeItems xs
  | _ => true

def dataFreeEntries : List (String × Value) → Bool
  | [] => true
  | (_, v) :: rest => dataFree v && dataFreeEntries rest

def dataFreeItems : List Value → Bool
  | [] => true
  | v :: rest => dataFree v && dataFreeItems rest

end

mutual

/-- Every `Data` wrapper in the tree is enabled. -/
def allEnabled : Value → Bool
  | .vdata b p => b && allEnabled p
  | .vmap es => allEnabledEntries es
  | .vseq xs => allEnabledItems xs
  | _ => true

def allEnabledEntries : List (String × Value) → Bool
  | [] => true
  | (_, v) :: rest => allEnabled v && allEnabledEntries rest

def allEnabledItems : List Value → Bool
  | [] => true
  | v :: rest => allEnabled v && allEnabledItems rest

end

mutual

/-- No `Data` wrapper's payload is itself directly a `Data` wrapper. -/
def noDataData : Value → Bool
  | .vdata _ p => !p.isData && noDataData p
  | .vmap es => noDataDataEntries es
  | .vseq xs => noDataDataItems xs
  | _ => true

def noDataDataEntries : List (String × Value) → Bool
  | [] => true
  | (_, v) :: rest => noDataData v && noDataDataEntries rest

def noDataDataItems : List Value → Bool
  | [] => true
  | v :: rest => noDataData v && noDataDataItems rest

end

mutual

theorem cleanSub_of_dataFree : ∀ v : Value, dataFree v = true → cleanSub v = v
  | .vnone, _ => rfl
  | .vint _, _ => rfl
  | .vbool _, _ => rfl
  | .vstr _, _ => rfl
  | .helperStr _ _, _ => rfl
  | .optionDef _ _ _, _ => rfl
  | .optionRoot _, _ => rfl
  | .optionDefaultValue, _ => rfl
  | .vdata _ _, h => by simp [dataFree] at h
  | .vmap es, h => by
      rw [cleanSub, cleanEntries_of_dataFree es (by simpa [dataFree] using h)]
  | .vseq xs, h => by
      rw [cleanSub, cleanItems_of_dataFree xs (by simpa [dataFree] using h)]

theorem cleanEntries_of_dataFree : ∀ es : List (String × Value),
    dataFreeEntries es = true → cleanEntries es = es
  | [], _ => rfl
  | (k, v) :: rest, h => by
      rw [dataFreeEntries, Bool.and_eq_true] at h
      rw [cleanEntries_cons]
      cases v
      case vdata e p => simp [dataFree] at h
      all_goals
        dsimp only
        rw [cleanSub_of_dataFree _ h.1, cleanEntries_of_dataFree rest h.2]

theorem cleanItems_of_dataFree : ∀ xs : List Value,
    dataFreeItems xs = true → cleanItems xs = xs
  | [], _ => rfl
  | v :: rest, h => by
      rw [dataFreeItems, Bool.and_eq_true] at h
      rw [cleanItems_cons]
      cases v
      case vdata e p => simp [dataFree] at h
      all_goals
        dsimp only
        rw [cleanSub_of_dataFree _ h.1, cleanItems_of_dataFree rest h.2]

end

/-- Cleaning a tree that holds no `Data` wrapper is the identity. -/
theorem DataClean_of_dataFree (v : Value) (h : dataFree v = true) :
    DataClean v = v := by
  cases v
  case vdata e p => simp [dataFree] at h
  case vmap es =>
      rw [DataClean, cleanEntries_of_dataFree es (by simpa [dataFree] using h)]
  case vseq xs =>
      rw [DataClean, cleanItems_of_dataFree xs (by simpa [dataFree] using h)]
  all_goals rfl

mutual

theorem cleanSub_dataFree : ∀ v : Value, allEnabled v = true →
    noDataData v = true → v.isData = false → dataFree (cleanSub v) = true
  | .vnone, _, _, _ => rfl
  | .vint _, _, _, _ => rfl
  | .vbool _, _, _, _ => rfl
  | .vstr _, _, _, _ => rfl
  | .helperStr _ _, _, _, _ => rfl
  | .optionDef _ _ _, _, _, _ => rfl
  | .optionRoot _, _, _, _ => rfl
  | .optionDefaultValue, _, _, _ => rfl
  | .vdata _ _, _, _, hd => by simp [Value.isData] at hd
  | .vmap es, he, hn, _ => by
      rw [cleanSub]
      exact cleanEntries_dataFree es (by simpa [allEnabled] using he)
        (by simpa [noDataData] using hn)
  | .vseq xs, he, hn, _ => by
      rw [cleanSub]
      exact cleanItems_dataFree xs (by simpa [allEnabled] using he)
        (by simpa [noDataData] using hn)

theorem cleanEntries_dataFree : ∀ es : List (String × Value),
    allEnabledEntries es = true → noDataDataEntries es = true →
    dataFreeEntries (cleanEntries es) = true
  | [], _, _ => rfl
  | (k, v) :: rest, he, hn => by
      rw [allEnabledEntries, Bool.and_eq_true] at he
      rw [noDataDataEntries, Bool.and_eq_true] at hn
      rw [cleanEntries_cons]
      cases v
      case vdata e p =>
          have he' := he.1
          have hn' := hn.1
          rw [allEnabled, Bool.and_eq_true] at he'
          rw [noDataData, Bool.and_eq_true, Bool.not_eq_true'] at hn'
          cases e
          · simp at he'
          · dsimp only
            rw [dataFreeEntries, Bool.and_eq_true]
            exact ⟨cleanSub_dataFree p he'.2 hn'.2 hn'.1,
              cleanEntries_dataFree rest he.2 hn.2⟩
      all_goals
        dsimp only
        rw [dataFreeEntries, Bool.and_eq_true]
        exact ⟨cleanSub_dataFree _ he.1 hn.1 rfl,
          cleanEntries_dataFree rest he.2 hn.2⟩

theorem cleanItems_dataFree : ∀ xs : List Value,
    allEnabledItems xs = true → noDataDataItems xs = true →
    dataFreeItems (cleanItems xs) = true
  | [], _, _ => rfl
  | v :: rest, he, hn => by
      rw [allEnabledItems, Bool.and_eq_true] at he
      rw [noDataDataItems, Bool.and_eq_true] at hn
      rw [cleanItems_cons]
      cases v
      case vdata e p =>
          have he' := he.1
          have hn' := hn.1
          rw [allEnabled, Bool.and_eq_true] at he'
          rw [noDataData, Bool.and_eq_true, Bool.not_eq_true'] at hn'
          cases e
          · simp at he'
          · dsimp only
            rw [dataFreeItems, Bool.and_eq_true]
            exact ⟨cleanSub_dataFree p he'.2 hn'.2 hn'.1,
              cleanItems_dataFree rest he.2 hn.2⟩
      all_goals
        dsimp only
        rw [dataFreeItems, Bool.and_eq_true]
        exact ⟨cleanSub_dataFree _ he.1 hn.1 rfl,
          cleanItems_dataFree rest he.2 hn.2⟩

end

/-- C3 counterexample: the mapping
`{'a': ValueData(ValueData('x', enabled=True), enabled=True)}` contains
only enabled `Data` wrappers, yet one pass of `DataClean` unwraps only
one level (the recursive in-place call cannot replace a bare `Data`
item), so a `Data` instance remains in the result and cleaning again
changes it — refuting both idempotence and the no-`Data`-remains part of
the claim as stated. -/
theorem DataClean_nested_data_counterexample :
    allEnabled (.vmap [("a", .vdata true (.vdata true (.vstr "x")))]) = true ∧
    DataClean (.vmap [("a", .vdata true (.vdata true (.vstr "x")))]) =
      .vmap [("a", .vdata true (.vstr "x"))] ∧
    dataFree (DataClean (.vmap [("a", .vdata true (.vdata true (.vstr "x")))])) =
      false ∧
    DataClean (DataClean (.vmap [("a", .vdata true (.vdata true (.vstr "x")))])) ≠
      DataClean (.vmap [("a", .vdata true (.vdata true (.vstr "x")))]) :=
  ⟨by decide, by decide, by decide, by decide⟩

/-- C3 (amended): for every tree whose root is a mapping or sequence,
containing only enabled `Data` wrappers none of which directly wraps
another `Data` wrapper, `DataClean` leaves no `Data` instance anywhere
in the result and is idempotent. -/
theorem DataClean_idempotent_on_enabled (t : Value)
    (hc : t.isContainer = true) (he : allEnabled t = true)
    (hn : noDataData t = true) :
    dataFree (DataClean t) = true ∧ DataClean (DataClean t) = DataClean t := by
  have hfree : dataFree (DataClean t) = true := by
    cases t
    case vmap es =>
        rw [DataClean]
        exact cleanEntries_dataFree es (by simpa [allEnabled] using he)
          (by simpa [noDataData] using hn)
    case vseq xs =>
        rw [DataClean]
        exact cleanItems_dataFree xs (by simpa [allEnabled] using he)
          (by simpa [noDataData] using hn)
    all_goals simp [Value.isContainer] at hc
  exact ⟨hfree, DataClean_of_dataFree _ hfree⟩

/-- Witness for the amended C3 at a concrete tree. -/
theorem DataClean_idempotent_on_enabled_witness :
    dataFree (DataClean (.vmap [("a", .vdata true (.vstr "x")),
      ("b", .vseq [.vdata true (.vint 1), .vint 2])])) = true ∧
    DataClean (DataClean (.vmap [("a", .vdata true (.vstr "x")),
      ("b", .vseq [.vdata true (.vint 1), .vint 2])])) =
    DataClean (.vmap [("a", .vdata true (.vstr "x")),
      ("b", .vseq [.vdata true (.vint 1), .vint 2])]) :=
  DataClean_idempotent_on_enabled _ (by decide) (by decide) (by decide)

/-- The walk of a dotted lookup only ever reaches mapping
intermediates: each present segment leads into a mapping (the final
value may be anything; a missing segment stops the walk). -/
def mapsOnlyWalk : Value → List String → Bool
  | _, [] => true
  | .vmap es, chunk :: rest =>
      (match aget es chunk with
       | none => true
       | some v => mapsOnlyWalk v rest)
  | _, _ :: _ => false

theorem walk_get_has (name : String) : ∀ (segs : List String) (cur : Value),
    mapsOnlyWalk cur segs = true →
    ((∃ v, dict_get_value_go name cur segs = .ok v) ↔
      dict_has_name_go cur segs = .ok true) ∧
    (dict_get_value_go name cur segs =
        .error (.optionError ("Could not find option \"" ++ name ++ "\"")) ↔
      dict_has_name_go cur segs = .ok false) := by
  intro segs
  induction segs with
  | nil =>
      intro cur _
      constructor
      · simp [dict_get_value_go, dict_has_name_go]
      · simp [dict_get_value_go, dict_has_name_go]
  | cons chunk rest ih =>
      intro cur hmw
      cases cur <;> simp [mapsOnlyWalk] at hmw
      case vmap es =>
        cases hget : aget es chunk with
        | none =>
            have hkey : akey es chunk = false := by
              rw [akey_eq_isSome, hget]; rfl
            constructor
            · simp [dict_get_value_go, dict_has_name_go, pyContains,
                Value.isMapping, hkey]
            · simp [dict_get_value_go, dict_has_name_go, pyContains,
                Value.isMapping, hkey]
        | some v =>
            have hkey : akey es chunk = true := by
              rw [akey_eq_isSome, hget]; rfl
            have hmw' : mapsOnlyWalk v rest = true := by
              rw [hget] at hmw
              simpa using hmw
            have hih := ih v hmw'
            constructor
            · simpa [dict_get_value_go, dict_has_name_go, pyContains,
                Value.isMapping, hkey, hget] using hih.1
            · simpa [dict_get_value_go, dict_has_name_go, pyContains,
                Value.isMapping, hkey, hget] using hih.2

/-- C9 counterexample: for `d = {'a': 1}` and name `a.b` the
intermediate `1` is neither a mapping nor a sequence, so this is one of
the claim's failure cases and `dict_get_value` does raise the
option-not-found error — but `dict_has_name`, which runs `'b' in 1`
without any isinstance guard, raises `TypeError` instead of returning
`False`. -/
theorem dict_has_name_raises_counterexample :
    dict_get_value (.vmap [("a", .vint 1)]) "a.b" =
      .error (.optionError "Could not find option \"a.b\"") ∧
    dict_has_name (.vmap [("a", .vint 1)]) "a.b" =
      .error (.typeError "argument is not iterable") ∧
    dict_has_name (.vmap [("a", .vint 1)]) "a.b" ≠ .ok false :=
  ⟨by decide, by decide, by decide⟩

/-- C9 (amended): when every intermediate reached along the dotted path
is a mapping, `dict_get_value` succeeds exactly when `dict_has_name`
returns `True` and raises the option-not-found `OptionError` exactly
when `dict_has_name` returns `False`; and `dict_get_value` raises the
option-not-found error whenever the walk hits an intermediate that is
neither a mapping nor a sequence.  (On non-mapping intermediates
`dict_has_name` may instead raise, and a non-mapping sequence containing
the segment makes `dict_get_value` raise an `AttributeError`.) -/
theorem dict_get_has_consistent_on_maps (es : List (String × Value)) (n : String)
    (h : mapsOnlyWalk (.vmap es) (pySplitDot n) = true) :
    ((∃ v, dict_get_value (.vmap es) n = .ok v) ↔
      dict_has_name (.vmap es) n = .ok true) ∧
    (dict_get_value (.vmap es) n =
        .error (.optionError ("Could not find option \"" ++ n ++ "\"")) ↔
      dict_has_name (.vmap es) n = .ok false) ∧
    (∀ (cur : Value) (chunk : String) (restSegs : List String),
      cur.isMapping = false → cur.isSequence = false →
      dict_get_value_go n cur (chunk :: restSegs) =
        .error (.optionError ("Could not find option \"" ++ n ++ "\""))) := by
  have hw := walk_get_has n (pySplitDot n) (.vmap es) h
  refine ⟨hw.1, hw.2, ?_⟩
  intro cur chunk restSegs hm hs
  simp [dict_get_value_go, hm, hs]

/-- Witness for the amended C9 at a concrete nested mapping. -/
theorem dict_get_has_consistent_on_maps_witness :
    ((∃ v, dict_get_value (.vmap [("a", .vmap [("b", .vint 5)])]) "a.b" = .ok v) ↔
      dict_has_name (.vmap [("a", .vmap [("b", .vint 5)])]) "a.b" = .ok true) ∧
    (dict_get_value (.vmap [("a", .vmap [("b", .vint 5)])]) "a.b" =
        .error (.optionError "Could not find option \"a.b\"") ↔
      dict_has_name (.vmap [("a", .vmap [("b", .vint 5)])]) "a.b" = .ok false) ∧
    dict_get_value_go "a.b" (.vint 7) ["b"] =
      .error (.optionError "Could not find option \"a.b\"") := by
  have h := dict_get_has_consistent_on_maps [("a", .vmap [("b", .vint 5)])] "a.b"
    (by decide)
  exact ⟨h.1, h.2.1, h.2.2 (.vint 7) "b" [] (by decide) (by decide)⟩

theorem ne_vdata_self : ∀ (p : Value) (b : Bool), Value.vdata b p ≠ p
  | .vnone, _ => fun h => Value.noConfusion h
  | .vint _, _ => fun h => Value.noConfusion h
  | .vbool _, _ => fun h => Value.noConfusion h
  | .vstr _, _ => fun h => Value.noConfusion h
  | .helperStr _ _, _ => fun h => Value.noConfusion h
  | .vmap _, _ => fun h => Value.noConfusion h
  | .vseq _, _ => fun h => Value.noConfusion h
  | .optionDef _ _ _, _ => fun h => Value.noConfusion h
  | .optionRoot _, _ => fun h => Value.noConfusion h
  | .optionDefaultValue, _ => fun h => Value.noConfusion h
  | .vdata b' p', b => fun h => by
      rw [Value.vdata.injEq] at h
      exact ne_vdata_self p' b' h.2

theorem cleanSub_ne_vdata : ∀ (p : Value) (b : Bool), cleanSub p ≠ .vdata b p
  | .vnone, _ => fun h => Value.noConfusion h
  | .vint _, _ => fun h => Value.noConfusion h
  | .vbool _, _ => fun h => Value.noConfusion h
  | .vstr _, _ => fun h => Value.noConfusion h
  | .helperStr _ _, _ => fun h => Value.noConfusion h
  | .vmap _, _ => fun h => Value.noConfusion h
  | .vseq _, _ => fun h => Value.noConfusion h
  | .optionDef _ _ _, _ => fun h => Value.noConfusion h
  | .optionRoot _, _ => fun h => Value.noConfusion h
  | .optionDefaultValue, _ => fun h => Value.noConfusion h
  | .vdata b' q, b => fun h => by
      rw [show cleanSub (.vdata b' q) = .vdata b' q from rfl,
        Value.vdata.injEq] at h
      exact ne_vdata_self q b' h.2.symm

theorem cleanEntries_length_le (es : List (String × Value)) :
    (cleanEntries es).length ≤ es.length := by
  induction es with
  | nil => simp [cleanEntries]
  | cons kv rest ih =>
      obtain ⟨k, v⟩ := kv
      rw [cleanEntries_cons]
      cases v
      case vdata e p =>
          cases e
          · dsimp only
            exact le_trans ih (Nat.le_succ _)
          · dsimp only
            simpa using ih
      all_goals
        dsimp only
        simpa using ih

theorem cleanItems_length_le (xs : List Value) :
    (cleanItems xs).length ≤ xs.length := by
  induction xs with
  | nil => simp [cleanItems]
  | cons v rest ih =>
      rw [cleanItems_cons]
      cases v
      case vdata e p =>
          cases e
          · dsimp only
            exact le_trans ih (Nat.le_succ _)
          · dsimp only
            simpa using ih
      all_goals
        dsimp only
        simpa using ih

mutual

theorem cleanSub_ne : ∀ v : Value, dataFree v = false → Value.isData v = false →
    cleanSub v ≠ v
  | .vnone, h, _ => by simp [dataFree] at h
  | .vint _, h, _ => by simp [dataFree] at h
  | .vbool _, h, _ => by simp [dataFree] at h
  | .vstr _, h, _ => by simp [dataFree] at h
  | .helperStr _ _, h, _ => by simp [dataFree] at h
  | .optionDef _ _ _, h, _ => by simp [dataFree] at h
  | .optionRoot _, h, _ => by simp [dataFree] at h
  | .optionDefaultValue, h, _ => by simp [dataFree] at h
  | .vdata _ _, _, hd => by simp [Value.isData] at hd
  | .vmap es, h, _ => fun heq => by
      rw [show cleanSub (.vmap es) = .vmap (cleanEntries es) from rfl,
        Value.vmap.injEq] at heq
      exact cleanEntries_ne es (by simpa [dataFree] using h) heq
  | .vseq xs, h, _ => fun heq => by
      rw [show cleanSub (.vseq xs) = .vseq (cleanItems xs) from rfl,
        Value.vseq.injEq] at heq
      exact cleanItems_ne xs (by simpa [dataFree] using h) heq

theorem cleanEntries_ne : ∀ es : List (String × Value),
    dataFreeEntries es = false → cleanEntries es ≠ es
  | [], h => by simp [dataFreeEntries] at h
  | (k, v) :: rest, h => by
      rw [dataFreeEntries, Bool.and_eq_false_iff] at h
      rw [cleanEntries_cons]
      cases v
      case vdata e p =>
          cases e
          · dsimp only
            intro heq
            have hlen := congrArg List.length heq
            rw [List.length_cons] at hlen
            have := cleanEntries_length_le rest
            omega
          · dsimp only
            intro heq
            rw [List.cons.injEq, Prod.mk.injEq] at heq
            exact cleanSub_ne_vdata p true heq.1.2
      all_goals
        dsimp only
        intro heq
        rw [List.cons.injEq, Prod.mk.injEq] at heq
        rcases h with hv | hrest
        · exact cleanSub_ne _ hv rfl heq.1.2
        · exact cleanEntries_ne rest hrest heq.2

theorem cleanItems_ne : ∀ xs : List Value,
    dataFreeItems xs = false → cleanItems xs ≠ xs
  | [], h => by simp [dataFreeItems] at h
  | v :: rest, h => by
      rw [dataFreeItems, Bool.and_eq_false_iff] at h
      rw [cleanItems_cons]
      cases v
      case vdata e p =>
          cases e
          · dsimp only
            intro heq
            have hlen := congrArg List.length heq
            rw [List.length_cons] at hlen
            have := cleanItems_length_le rest
            omega
          · dsimp only
            intro heq
            rw [List.cons.injEq] at heq
            exact cleanSub_ne_vdata p true heq.1
      all_goals
        dsimp only
        intro heq
        rw [List.cons.injEq] at heq
        rcases h with hv | hrest
        · exact cleanSub_ne _ hv rfl heq.1
        · exact cleanItems_ne rest hrest heq.2

end

/-- The value held by the caller's argument after `DataClean(t,
in_place=True)`: the function mutates mutable mappings and sequences in
place (and returns that same object), while for any other argument no
statement mutates it, so it keeps its value. -/
def inPlaceResult (t : Value) : Value :=
  match t with
  | .vmap es => .vmap (cleanEntries es)
  | .vseq xs => .vseq (cleanItems xs)
  | v => v

/-- `DataClean(data, in_place)` observed as the pair (return value,
value of the caller's argument after the call).  With `in_place=False`
the source first rebinds `data = copy.deepcopy(data)`, so every
mutation hits the disjoint copy and the caller's tree — including every
`Data` instance inside it — keeps its value; with `in_place=True` the
argument's object graph itself is cleaned. -/
def DataCleanCall (t : Value) (in_place : Bool) : Value × Value :=
  if in_place then (DataClean t, inPlaceResult t)
  else (DataClean t, t)

/-- C5: for a tree (a mapping or sequence) containing at least one
`Data` instance, `DataClean` with `in_place=False` returns the cleaned
result while the caller's tree is left unmodified, whereas
`in_place=True` mutates the tree itself (its value afterwards differs
from the original); both variants return the same cleaned value. -/
theorem DataClean_in_place_frame (t : Value) (hc : t.isContainer = true)
    (hd : dataFree t = false) :
    (DataCleanCall t false).2 = t ∧
    (DataCleanCall t true).2 ≠ t ∧
    (DataCleanCall t false).1 = (DataCleanCall t true).1 := by
  refine ⟨rfl, ?_, rfl⟩
  cases t
  case vmap es =>
      intro heq
      rw [show (DataCleanCall (.vmap es) true).2 = .vmap (cleanEntries es) from rfl,
        Value.vmap.injEq] at heq
      exact cleanEntries_ne es (by simpa [dataFree] using hd) heq
  case vseq xs =>
      intro heq
      rw [show (DataCleanCall (.vseq xs) true).2 = .vseq (cleanItems xs) from rfl,
        Value.vseq.injEq] at heq
      exact cleanItems_ne xs (by simpa [dataFree] using hd) heq
  all_goals simp [Value.isContainer] at hc

/-- Witness for C5 at the concrete tree of the repository's
`test_data_clean_inplace` test. -/
theorem DataClean_in_place_frame_witness :
    (DataCleanCall (.vmap [("x", .vint 1), ("y", .vdata true (.vint 2))]) false).2 =
      .vmap [("x", .vint 1), ("y", .vdata true (.vint 2))] ∧
    (DataCleanCall (.vmap [("x", .vint 1), ("y", .vdata true (.vint 2))]) true).2 ≠
      .vmap [("x", .vint 1), ("y", .vdata true (.vint 2))] ∧
    (DataCleanCall (.vmap [("x", .vint 1), ("y", .vdata true (.vint 2))]) false).1 =
      (DataCleanCall (.vmap [("x", .vint 1), ("y", .vdata true (.vint 2))]) true).1 :=
  DataClean_in_place_frame _ (by decide) (by decide)

end Kubragen
